import Mathlib

/-!
Shallow embedding of the `robbyriverside/project` scaffolding tool.

The Go sources are translated into executable Lean definitions:
pure string manipulation (`strings.Split`, `strings.TrimPrefix`, ...)
is modelled character-list recursively so every definition reduces in
the kernel; `path/filepath` operations (`Clean`, `Abs`, `Join`) follow
the Go slash-path algorithm; the persisted YAML config file is modelled
as `Option Config` (absent, or the full record that `Save` wrote);
the generated project tree is modelled as an association list from
path to content.  I/O failures of the operating system itself
(unreadable files, failing `Getwd`) are outside the model: the
modelled runs are the ones where the OS calls succeed.
-/

namespace strgo

/-- Model of a prefix test on character lists (strings.HasPrefix). -/
def startsWithChars : List Char → List Char → Bool
  | _, [] => true
  | [], _ :: _ => false
  | c :: cs, p :: ps => c == p && startsWithChars cs ps

/-- Model of strings.Contains via scanning every suffix. -/
def containsChars (pat : List Char) : List Char → Bool
  | [] => pat.isEmpty
  | c :: cs => startsWithChars (c :: cs) pat || containsChars pat cs

/-- Model of strings.Split for a single-character separator (the only
separators this repository splits on are "/" and ","). -/
def splitOnChar (sep : Char) : List Char → List (List Char)
  | [] => [[]]
  | c :: cs =>
    let r := splitOnChar sep cs
    if c == sep then [] :: r
    else
      match r with
      | [] => [[c]]
      | h :: t => (c :: h) :: t

/-- Model of strings.Replace with n = 1 for a single-character pattern. -/
def replaceFirstChar (old new : Char) : List Char → List Char
  | [] => []
  | c :: cs => if c == old then new :: cs else c :: replaceFirstChar old new cs

/-- Splits at the first occurrence of a separator character, used to model
strings.SplitN(s, sep, 2). -/
def splitFirstAt (sep : Char) : List Char → Option (List Char × List Char)
  | [] => none
  | c :: cs =>
    if c == sep then some ([], cs)
    else (splitFirstAt sep cs).map (fun p => (c :: p.1, p.2))

/-- Go whitespace test restricted to the ASCII space characters that can
occur in this repository's data (strings.TrimSpace cutset). -/
def isSpaceChar (c : Char) : Bool :=
  c == ' ' || c == '\t' || c == '\n' || c == '\r'

def goStartsWith (s pre : String) : Bool :=
  startsWithChars s.data pre.data

def goEndsWith (s suf : String) : Bool :=
  startsWithChars s.data.reverse suf.data.reverse

/-- Model of strings.TrimPrefix. -/
def goTrimLeading (s pre : String) : String :=
  if goStartsWith s pre then ⟨s.data.drop pre.data.length⟩ else s

/-- Model of strings.TrimSuffix. -/
def goTrimTrailing (s suf : String) : String :=
  if goEndsWith s suf then ⟨(s.data.reverse.drop suf.data.length).reverse⟩ else s

/-- Model of strings.Split for the single-character separators used here. -/
def goSplit (s : String) (sep : Char) : List String :=
  (splitOnChar sep s.data).map (fun cs => ⟨cs⟩)

/-- Model of strings.Replace(s, old, new, 1) for one-character arguments. -/
def goReplaceFirst (s : String) (old new : Char) : String :=
  ⟨replaceFirstChar old new s.data⟩

/-- Model of strings.Contains. -/
def goContains (s pat : String) : Bool :=
  containsChars pat.data s.data

/-- Model of strings.TrimSpace. -/
def goTrimSpace (s : String) : String :=
  ⟨((s.data.dropWhile isSpaceChar).reverse.dropWhile isSpaceChar).reverse⟩

/-- Joins a list of strings with a separator (strings.Join). -/
def joinWith (sep : String) : List String → String
  | [] => ""
  | [x] => x
  | x :: y :: t => x ++ sep ++ joinWith sep (y :: t)

end strgo

namespace pathgo

open strgo

/-- Segment pass of Go path/filepath.Clean: drops empty and "." segments,
resolves ".." against the accumulated output, keeps leading ".." on
relative paths and drops it at the root of rooted ones. -/
def cleanSegs (rooted : Bool) : List String → List String → List String
  | [], acc => acc.reverse
  | p :: rest, acc =>
    if p == "" || p == "." then cleanSegs rooted rest acc
    else if p == ".." then
      match acc with
      | [] => if rooted then cleanSegs rooted rest [] else cleanSegs rooted rest [".."]
      | t :: acc' =>
        if t == ".." then cleanSegs rooted rest (p :: t :: acc')
        else cleanSegs rooted rest acc'
    else cleanSegs rooted rest (p :: acc)

/-- Model of path/filepath.Clean on slash-separated paths. -/
def goClean (path : String) : String :=
  if path == "" then "."
  else
    let rooted := goStartsWith path "/"
    let s := joinWith "/" (cleanSegs rooted (goSplit path '/') [])
    if rooted then "/" ++ s
    else if s == "" then "." else s

/-- Model of path/filepath.Abs for a process whose working directory is
cwd and for which Getwd succeeds. -/
def goAbs (cwd path : String) : String :=
  if goStartsWith path "/" then goClean path else goClean (cwd ++ "/" ++ path)

/-- Model of path/filepath.Join. -/
def goJoin (elems : List String) : String :=
  let ne := elems.filter (fun e => e ≠ "")
  if ne.isEmpty then "" else goClean (joinWith "/" ne)

end pathgo

namespace cli

open strgo

/-- URL normalization of GenCommand.Execute (cmd/project/main.go
lines 111-126): strip an https scheme for the known hosting prefix,
rewrite the SSH colon form, then drop one trailing ".git". -/
def normalizeGitURL (gitURL : String) : String :=
  let m := gitURL
  let m := if goStartsWith gitURL "https://github.com/" then goTrimLeading gitURL "https://" else m
  let m := if goStartsWith gitURL "git@github.com:" then goReplaceFirst (goTrimLeading gitURL "git@") ':' '/' else m
  goTrimTrailing m ".git"

/-- Module derivation of GenCommand.Execute (cmd/project/main.go
lines 111-134): normalize, split on "/", require at least 3 segments,
project name is the last segment.  Returns (moduleURL, repoName). -/
def deriveModule (gitURL : String) : Except String (String × String) :=
  let moduleURL := normalizeGitURL gitURL
  let parts := goSplit moduleURL '/'
  if 3 ≤ parts.length then Except.ok (moduleURL, parts.getLastD "")
  else Except.error "invalid GitHub URL format"

/-- Argument pair (moduleURL, outputDir) that GenCommand.Execute passes
to GenerateAll, or the error it returns before reaching generation
(cmd/project/main.go lines 111-153). -/
def genExecutePlan (gitURL dirFlag : String) : Except String (String × String) :=
  match deriveModule gitURL with
  | Except.error e => Except.error e
  | Except.ok (moduleURL, repoName) =>
    Except.ok (moduleURL, if dirFlag == "" then repoName else dirFlag)

end cli

namespace config

open strgo pathgo

/-- Config record of the generated config package: fields home, author
and log_fmt with their yaml tags, in declaration order. -/
structure Config where
  homeDir : String
  author : String
  logFmt : String
deriving DecidableEq

/-- One field descriptor as seen by the reflection walk: its yaml tag,
its raw config tag, and the getter and setter that reflect.Value
provides for the field. -/
structure FieldInfo where
  yamlTag : String
  configTag : String
  getVal : Config → String
  setVal : Config → String → Config

/-- Fields of Config in declaration order with their struct tags,
exactly as reflection enumerates them. -/
def configFields : List FieldInfo :=
  [ { yamlTag := "home",
      configTag := "desc=Base directory for storing data,default=~/myapp",
      getVal := fun c => c.homeDir,
      setVal := fun c v => { c with homeDir := v } },
    { yamlTag := "author",
      configTag := "desc=Default author name for new items",
      getVal := fun c => c.author,
      setVal := fun c v => { c with author := v } },
    { yamlTag := "log_fmt",
      configTag := "desc=Log output format (json, formatted, text),default=json",
      getVal := fun c => c.logFmt,
      setVal := fun c v => { c with logFmt := v } } ]

/-- Built-in default record; fa is the value fallbackAuthor() produced
for this environment (user name, home directory base, or "unknown"). -/
def defaultConfig (fa : String) : Config :=
  { homeDir := "~/myapp", author := fa, logFmt := "json" }

/-- Model of config.Load: the persisted file is modelled as the full
record Save last wrote (none when no file exists, in which case the
defaults are returned).  Unreadable or unparsable files are outside
the model. -/
def Load (fa : String) (fs : Option Config) : Config :=
  match fs with
  | none => defaultConfig fa
  | some cfg => cfg

/-- Model of config.Set on persisted state fs: load, find the field by
yaml tag ("home" values are made absolute first), save the full
record.  Returns (Go return value, resulting persisted state). -/
def Set (cwd fa : String) (fs : Option Config) (key value : String) :
    Except String Unit × Option Config :=
  let cfg := Load fa fs
  match configFields.find? (fun f => f.yamlTag == key) with
  | none => (Except.error ("unknown config key: " ++ key), fs)
  | some f =>
    let v := if key == "home" then goAbs cwd value else value
    (Except.ok (), some (f.setVal cfg v))

/-- Model of config.Get: load and look the field up by yaml tag; it
performs no Save, so the persisted state is returned unchanged. -/
def Get (fa : String) (fs : Option Config) (key : String) :
    Except String String × Option Config :=
  let cfg := Load fa fs
  match configFields.find? (fun f => f.yamlTag == key) with
  | some f => (Except.ok (f.getVal cfg), fs)
  | none => (Except.error ("unknown config key: " ++ key), fs)

/-- Map update used by parseTag (later entries overwrite earlier ones,
as for a Go map). -/
def mapPut (m : List (String × String)) (k v : String) : List (String × String) :=
  (k, v) :: m.filter (fun p => p.1 ≠ k)

/-- Map lookup with the Go zero value "" for missing keys. -/
def mapGet (m : List (String × String)) (k : String) : String :=
  ((m.find? (fun p => p.1 == k)).map (fun p => p.2)).getD ""

/-- Model of config.parseTag: split the tag on every comma, trim each
part, keep the parts that split in two at their first "=". -/
def parseTag (tag : String) : List (String × String) :=
  (goSplit tag ',').foldl
    (fun out part =>
      match splitFirstAt '=' (goTrimSpace part).data with
      | some kv => mapPut out ⟨kv.1⟩ ⟨kv.2⟩
      | none => out)
    []

/-- Model of config.Describe: one line per field in declaration order,
falling back to the tag's default when the trimmed value is empty and
a default exists.  The arrow separator reproduces the source bytes. -/
def Describe (fa : String) (fs : Option Config) : List String :=
  let cfg := Load fa fs
  configFields.map (fun f =>
    let parts := parseTag f.configTag
    let value := f.getVal cfg
    let value :=
      if goTrimSpace value == "" && mapGet parts "default" != "" then
        mapGet parts "default"
      else value
    let desc := mapGet parts "desc"
    "  " ++ f.yamlTag ++ " = " ++ value ++ "\n    \u00E2\u2020\u2019 " ++ desc)

end config

namespace project

open strgo pathgo

/-- GenConfig record of project.go. -/
structure GenConfig where
  moduleURL : String
  projectName : String
  outputDir : String
  homeDir : String

/-- Model of NewGenConfig: default outDir to ".", project name is the
last "/"-segment of the trimmed module URL, HomeDir is "~/name". -/
def NewGenConfig (moduleURL outDir : String) : GenConfig :=
  let outDir := if outDir == "" then "." else outDir
  let name := (goSplit (goTrimSpace moduleURL) '/').getLastD ""
  { moduleURL := moduleURL, projectName := name, outputDir := outDir,
    homeDir := "~/" ++ name }

/-- Model of GenConfig.ProjectPath for a process whose working directory
is cwd: the absolute form of OutputDir. -/
def ProjectPath (gc : GenConfig) (cwd : String) : String :=
  goAbs cwd gc.outputDir

/-- Model of Generator.filePath: the routing switch from logical file
type to destination path (project.go lines 135-152). -/
def filePath (gc : GenConfig) (cwd : String) (fileType : String) : String :=
  let projPath := ProjectPath gc cwd
  if fileType == "main" then goJoin [projPath, "cmd", gc.projectName, "main.go"]
  else if fileType == "config" then goJoin [projPath, "config", "config.go"]
  else if fileType == "logs" then goJoin [projPath, "logs", "logs.go"]
  else if fileType == "taskfile" then goJoin [projPath, "Taskfile.yaml"]
  else if fileType == "project" then goJoin [projPath, gc.projectName ++ ".go"]
  else goJoin [projPath, fileType ++ ".go"]

/-- Resolver table as the spec states it, for comparison with filePath:
entrypoint source under cmd/{projectName}, config and logs sources in
their directories, the build-task file and {projectName}.go at the
project root, and {logicalName}.go at the root for anything else. -/
def resolvePathSpec (logicalName projectRoot projectName : String) : String :=
  if logicalName == "main" then goJoin [projectRoot, "cmd", projectName, "main.go"]
  else if logicalName == "config" then goJoin [projectRoot, "config", "config.go"]
  else if logicalName == "logs" then goJoin [projectRoot, "logs", "logs.go"]
  else if logicalName == "taskfile" then goJoin [projectRoot, "Taskfile.yaml"]
  else if logicalName == "project" then goJoin [projectRoot, projectName ++ ".go"]
  else goJoin [projectRoot, logicalName ++ ".go"]

/-- Generated output tree, modelled as an association list from path to
file content; the head entry for a path is its current content. -/
abbrev FS := List (String × String)

/-- Reads the current content at a path, if any. -/
def fsRead (fs : FS) (p : String) : Option String :=
  (fs.find? (fun e => e.1 == p)).map (fun e => e.2)

/-- Whole-file write: the new content shadows any previous entry. -/
def fsWrite (fs : FS) (p c : String) : FS :=
  (p, c) :: fs

/-- Fixed ordered list of logical file types generated by GenerateAll
(project.go line 79). -/
def fileTypes : List String :=
  ["main", "config", "logs", "project", "taskfile"]

/-- Model of Generator.GenerateFile: render the file type's template
(render abstracts the embedded template lookup and execution) and write
the result at filePath unconditionally, with no existing-content check.
Returns the new tree. -/
def GenerateFile (render : String → Except String String) (gc : GenConfig)
    (cwd : String) (fileType : String) (fs : FS) : Except String FS :=
  match render fileType with
  | Except.error e => Except.error e
  | Except.ok content => Except.ok (fsWrite fs (filePath gc cwd fileType) content)

/-- File loop of Generator.GenerateAll (project.go lines 81-85): run the
step for each file type in order, stopping at the first failure and
wrapping its error with the logical file name.  Also returns the list
of file types actually attempted, in order. -/
def genLoop (step : String → FS → Except String FS) :
    List String → FS → Except String FS × List String
  | [], fs => (Except.ok fs, [])
  | ft :: rest, fs =>
    match step ft fs with
    | Except.error e => (Except.error ("failed to generate " ++ ft ++ ": " ++ e), [ft])
    | Except.ok fs' =>
      let r := genLoop step rest fs'
      (r.1, ft :: r.2)

/-- Runs the step over a list of file types, returning the final tree
when every step succeeds. -/
def runOk (step : String → FS → Except String FS) : FS → List String → Option FS
  | fs, [] => some fs
  | fs, ft :: rest =>
    match step ft fs with
    | Except.ok fs' => runOk step fs' rest
    | Except.error _ => none

/-- Model of Generator.InitMod: skip when go.mod already exists,
otherwise run the external go mod init, whose outcome (the created
manifest content, or a failure) is the initContent parameter. -/
def InitMod (initContent : Except String String) (gc : GenConfig) (cwd : String)
    (fs : FS) : Except String FS :=
  let modPath := goJoin [ProjectPath gc cwd, "go.mod"]
  match fsRead fs modPath with
  | some _ => Except.ok fs
  | none =>
    match initContent with
    | Except.error e => Except.error ("failed to run go mod init: " ++ e)
    | Except.ok c => Except.ok (fsWrite fs modPath c)

/-- Replace-directive block appended to go.mod (project.go lines 221-228). -/
def replaceBlock (moduleURL : String) : String :=
  "\n\nreplace (\n\t" ++ moduleURL ++ " => .\n\t" ++ moduleURL ++
    "/config => ./config\n\t" ++ moduleURL ++ "/logs => ./logs\n)\n"

/-- Model of Generator.addReplaceDirectives: read go.mod and append the
replace block unless the substring "replace (" is already present. -/
def addReplaceDirectives (gc : GenConfig) (cwd : String) (fs : FS) :
    Except String FS :=
  let modPath := goJoin [ProjectPath gc cwd, "go.mod"]
  match fsRead fs modPath with
  | none => Except.error "failed to read go.mod: file does not exist"
  | some content =>
    if goContains content "replace (" then Except.ok fs
    else Except.ok (fsWrite fs modPath (content ++ replaceBlock gc.moduleURL))

end project

section theorems

open strgo pathgo cli project

theorem goTrimTrailing_of_not {s suf : String} (h : goEndsWith s suf = false) :
    goTrimTrailing s suf = s := by
  simp [goTrimTrailing, h]

theorem normalize_fixedpoint {m : String}
    (h1 : goStartsWith m "https://github.com/" = false)
    (h2 : goStartsWith m "git@github.com:" = false)
    (h3 : goEndsWith m ".git" = false) :
    normalizeGitURL m = m := by
  simp [normalizeGitURL, h1, h2, goTrimTrailing_of_not h3]

theorem genLoop_all_ok (step : String → FS → Except String FS)
    (hstep : ∀ ft fs, ∃ fs', step ft fs = Except.ok fs') :
    ∀ (l : List String) (fs : FS), (genLoop step l fs).2 = l := by
  intro l
  induction l with
  | nil => intro fs; rfl
  | cons ft rest ih =>
    intro fs
    obtain ⟨fs', hfs'⟩ := hstep ft fs
    simp [genLoop, hfs', ih]

theorem genLoop_first_failure (step : String → FS → Except String FS)
    (ft e : String) (hft : ∀ s, step ft s = Except.error e) :
    ∀ (pre : List String), (∀ p ∈ pre, ∀ s, ∃ s', step p s = Except.ok s') →
      ∀ (post : List String) (fs : FS),
        genLoop step (pre ++ ft :: post) fs =
          (Except.error ("failed to generate " ++ ft ++ ": " ++ e), pre ++ [ft]) := by
  intro pre
  induction pre with
  | nil => intro _ post fs; simp [genLoop, hft fs]
  | cons p rest ih =>
    intro hpre post fs
    obtain ⟨s', hs'⟩ := hpre p (by simp) fs
    simp [genLoop, hs', ih (fun q hq s => hpre q (by simp [hq]) s) post s']

/-- C2 counterexample: the input "a/b/c.git.git" normalizes to the module
path "a/b/c.git" with three segments and project name "c.git", but
deriving again from that module path strips another ".git" and yields a
different module path and project name, so derivation is not idempotent
on every input whose normalized form has at least 3 segments. -/
theorem deriveModule_idempotent_cex :
    3 ≤ (goSplit (normalizeGitURL "a/b/c.git.git") '/').length ∧
    deriveModule "a/b/c.git.git" = Except.ok ("a/b/c.git", "c.git") ∧
    deriveModule "a/b/c.git" = Except.ok ("a/b/c", "c") ∧
    ("a/b/c", "c") ≠ (("a/b/c.git", "c.git") : String × String) :=
  ⟨by decide, rfl, rfl, by decide⟩

/-- C2 (amended): whenever the normalized input has at least 3
slash-separated segments, deriveModule succeeds with project name equal
to the final segment; and it is idempotent provided the derived module
path does not itself start with one of the two rewritten hosting
prefixes and does not end in ".git". -/
theorem deriveModule_lastSegment_idem (gitURL : String)
    (h3 : 3 ≤ (goSplit (normalizeGitURL gitURL) '/').length) :
    deriveModule gitURL =
      Except.ok (normalizeGitURL gitURL,
        (goSplit (normalizeGitURL gitURL) '/').getLastD "") ∧
    (goStartsWith (normalizeGitURL gitURL) "https://github.com/" = false →
     goStartsWith (normalizeGitURL gitURL) "git@github.com:" = false →
     goEndsWith (normalizeGitURL gitURL) ".git" = false →
     deriveModule (normalizeGitURL gitURL) = deriveModule gitURL) := by
  constructor
  · unfold deriveModule
    exact if_pos h3
  · intro h1 h2 h4
    unfold deriveModule
    rw [normalize_fixedpoint h1 h2 h4]

/-- C2 witness at the input "https://github.com/acme/widgets.git". -/
theorem deriveModule_lastSegment_idem_witness :
    3 ≤ (goSplit (normalizeGitURL "https://github.com/acme/widgets.git") '/').length ∧
    deriveModule "https://github.com/acme/widgets.git" =
      Except.ok (normalizeGitURL "https://github.com/acme/widgets.git",
        (goSplit (normalizeGitURL "https://github.com/acme/widgets.git") '/').getLastD "") ∧
    deriveModule (normalizeGitURL "https://github.com/acme/widgets.git") =
      deriveModule "https://github.com/acme/widgets.git" :=
  ⟨by decide,
   (deriveModule_lastSegment_idem "https://github.com/acme/widgets.git" (by decide)).1,
   (deriveModule_lastSegment_idem "https://github.com/acme/widgets.git" (by decide)).2
     (by decide) (by decide) (by decide)⟩

/-- C3: when the normalized module path has fewer than 3 slash-separated
segments, GenCommand.Execute returns the invalid-URL error before ever
reaching GenerateAll, for any value of the --dir flag. -/
theorem genExecute_short_module_fails (gitURL dirFlag : String)
    (h : (goSplit (normalizeGitURL gitURL) '/').length < 3) :
    genExecutePlan gitURL dirFlag = Except.error "invalid GitHub URL format" := by
  have hd : deriveModule gitURL = Except.error "invalid GitHub URL format" := by
    unfold deriveModule
    exact if_neg (by omega)
  unfold genExecutePlan
  rw [hd]

/-- C3 witness at the two-segment input "onlytwo/parts". -/
theorem genExecute_short_module_fails_witness :
    (goSplit (normalizeGitURL "onlytwo/parts") '/').length < 3 ∧
    genExecutePlan "onlytwo/parts" "" = Except.error "invalid GitHub URL format" :=
  ⟨by decide, genExecute_short_module_fails "onlytwo/parts" "" (by decide)⟩

/-- C4: the HTTPS and SSH hosting forms of acme/widgets both derive the
module path github.com/acme/widgets and the project name widgets. -/
theorem deriveModule_both_url_forms :
    deriveModule "https://github.com/acme/widgets.git" =
      Except.ok ("github.com/acme/widgets", "widgets") ∧
    deriveModule "git@github.com:acme/widgets.git" =
      Except.ok ("github.com/acme/widgets", "widgets") :=
  ⟨rfl, rfl⟩

/-- C5: the output path resolver of the generator agrees with the
spec's routing table on every logical name, project root and project
name, including the fallback row, with no error case. -/
theorem filePath_matches_spec_table (gc : GenConfig) (cwd fileType : String) :
    filePath gc cwd fileType =
      resolvePathSpec fileType (ProjectPath gc cwd) gc.projectName :=
  rfl

end theorems

section theorems2

open strgo pathgo project

/-- C1 counterexample: for the declared key "home" and the relative
value "foo" (process working directory "/w", no persisted file), Set
succeeds but stores the absolute normalization "/w/foo", so the
following Get returns "/w/foo" and not the written value "foo". -/
theorem config_roundtrip_cex :
    (config.Set "/w" "u" none "home" "foo").1 = Except.ok () ∧
    (config.Get "u" (config.Set "/w" "u" none "home" "foo").2 "home").1 =
      Except.ok "/w/foo" ∧
    ("/w/foo" : String) ≠ "foo" :=
  ⟨rfl, rfl, by decide⟩

/-- C1 (amended): for every declared key, Set succeeds and the
following Get returns exactly the stored value: the written value
itself for author and log_fmt, and its absolute normalization for
home (so the round trip returns the written value verbatim only when
that value is already an absolute clean path). -/
theorem config_set_get_roundtrip (cwd fa : String) (fs : Option config.Config)
    (k v : String) (hk : k = "home" ∨ k = "author" ∨ k = "log_fmt") :
    (config.Set cwd fa fs k v).1 = Except.ok () ∧
    (config.Get fa (config.Set cwd fa fs k v).2 k).1 =
      Except.ok (if k == "home" then goAbs cwd v else v) := by
  rcases hk with rfl | rfl | rfl <;>
    simp [config.Set, config.Get, config.Load, config.configFields, List.find?]

/-- C1 witness at the declared key "author". -/
theorem config_set_get_roundtrip_witness :
    (("author" : String) = "home" ∨ ("author" : String) = "author" ∨
      ("author" : String) = "log_fmt") ∧
    (config.Set "/w" "u" none "author" "bob").1 = Except.ok () ∧
    (config.Get "u" (config.Set "/w" "u" none "author" "bob").2 "author").1 =
      Except.ok (if ("author" : String) == "home" then goAbs "/w" "bob" else "bob") :=
  ⟨by decide,
   (config_set_get_roundtrip "/w" "u" none "author" "bob" (by decide)).1,
   (config_set_get_roundtrip "/w" "u" none "author" "bob" (by decide)).2⟩

/-- C8: evaluated on a fresh load with no persisted file (fallback
author "alice"), Describe returns one line per field in declaration
order pairing each key with its default value, but the description
printed for log_fmt is "Log output format (json": parseTag splits the
struct tag at every comma, truncating the declared description
"Log output format (json, formatted, text)" at its first comma. -/
theorem describe_truncates_log_fmt_desc :
    config.Describe "alice" none =
      ["  home = ~/myapp\n    \u00E2\u2020\u2019 Base directory for storing data",
       "  author = alice\n    \u00E2\u2020\u2019 Default author name for new items",
       "  log_fmt = json\n    \u00E2\u2020\u2019 Log output format (json"] ∧
    ("Log output format (json" : String) ≠ "Log output format (json, formatted, text)" :=
  ⟨rfl, by decide⟩

/-- C9: Set with a key matching no declared field returns the
unknown-key error and leaves the persisted config exactly as it was:
the error return happens before any Save. -/
theorem config_set_unknown_key_atomic (cwd fa : String) (fs : Option config.Config)
    (k v : String)
    (h1 : (("home" : String) == k) = false)
    (h2 : (("author" : String) == k) = false)
    (h3 : (("log_fmt" : String) == k) = false) :
    config.Set cwd fa fs k v = (Except.error ("unknown config key: " ++ k), fs) := by
  simp [config.Set, config.Load, config.configFields, List.find?, h1, h2, h3]

/-- C9 witness at the undeclared key "nope". -/
theorem config_set_unknown_key_atomic_witness :
    (("home" : String) == "nope") = false ∧
    (("author" : String) == "nope") = false ∧
    (("log_fmt" : String) == "nope") = false ∧
    config.Set "/w" "u" none "nope" "x" =
      (Except.error ("unknown config key: " ++ "nope"), none) :=
  ⟨by decide, by decide, by decide,
   config_set_unknown_key_atomic "/w" "u" none "nope" "x"
     (by decide) (by decide) (by decide)⟩

/-- C10: Get returns the persisted state unchanged for every key,
declared or not: it only loads and never saves. -/
theorem config_get_never_mutates (fa : String) (fs : Option config.Config)
    (k : String) : (config.Get fa fs k).2 = fs := by
  cases h : config.configFields.find? (fun f => f.yamlTag == k) <;>
    simp [config.Get, h]

/-- C6: the file loop of GenerateAll attempts the logical file types in
exactly the order main, config, logs, project, taskfile when every
render succeeds, and on the first render failure it stops immediately,
attempting no later file and returning the underlying error wrapped
with the failing logical file's name. -/
theorem generateAll_order_and_abort (render : String → Except String String)
    (gc : GenConfig) (cwd : String) (fs : FS) :
    ((∀ ft, ∃ c, render ft = Except.ok c) →
      (genLoop (GenerateFile render gc cwd) fileTypes fs).2 = fileTypes) ∧
    (∀ (pre : List String) (ft : String) (post : List String) (e : String),
      fileTypes = pre ++ ft :: post →
      (∀ p ∈ pre, ∃ c, render p = Except.ok c) →
      render ft = Except.error e →
      genLoop (GenerateFile render gc cwd) fileTypes fs =
        (Except.error ("failed to generate " ++ ft ++ ": " ++ e), pre ++ [ft])) := by
  constructor
  · intro h
    refine genLoop_all_ok _ (fun ft s => ?_) fileTypes fs
    obtain ⟨c, hc⟩ := h ft
    exact ⟨fsWrite s (filePath gc cwd ft) c, by simp [GenerateFile, hc]⟩
  · intro pre ft post e hsplit hpre hfail
    rw [hsplit]
    refine genLoop_first_failure _ ft e (fun s => by simp [GenerateFile, hfail]) pre
      (fun p hp s => ?_) post fs
    obtain ⟨c, hc⟩ := hpre p hp
    exact ⟨fsWrite s (filePath gc cwd p) c, by simp [GenerateFile, hc]⟩

/-- C6 witness: with an always-succeeding renderer all five files are
attempted in order; with a renderer failing on "logs", generation stops
after main, config, logs and reports the wrapped error. -/
theorem generateAll_order_and_abort_witness :
    (genLoop
      (GenerateFile (fun ft => Except.ok ft)
        (NewGenConfig "github.com/acme/widgets" "") "/w")
      fileTypes []).2 = fileTypes ∧
    genLoop
      (GenerateFile (fun ft => if ft == "logs" then Except.error "boom" else Except.ok ft)
        (NewGenConfig "github.com/acme/widgets" "") "/w")
      fileTypes [] =
      (Except.error ("failed to generate " ++ "logs" ++ ": " ++ "boom"),
        ["main", "config"] ++ ["logs"]) := by
  constructor
  · exact (generateAll_order_and_abort (fun ft => Except.ok ft)
      (NewGenConfig "github.com/acme/widgets" "") "/w" []).1 (fun ft => ⟨ft, rfl⟩)
  · exact (generateAll_order_and_abort _
      (NewGenConfig "github.com/acme/widgets" "") "/w" []).2
      ["main", "config"] "logs" ["project", "taskfile"] "boom" rfl
      (fun p hp => ⟨p, by fin_cases hp <;> rfl⟩) rfl

/-- C7: rerunning generation over an existing tree is asymmetrically
idempotent: InitMod is a successful no-op whenever go.mod already
exists, addReplaceDirectives is a successful no-op whenever go.mod
already contains the substring "replace (", while GenerateFile always
overwrites its destination with the freshly rendered content no matter
what was there before. -/
theorem second_run_asymmetric_idempotence :
    (∀ (initContent : Except String String) (gc : GenConfig) (cwd : String) (fs : FS),
      (fsRead fs (goJoin [ProjectPath gc cwd, "go.mod"])).isSome = true →
      InitMod initContent gc cwd fs = Except.ok fs) ∧
    (∀ (gc : GenConfig) (cwd : String) (fs : FS) (content : String),
      fsRead fs (goJoin [ProjectPath gc cwd, "go.mod"]) = some content →
      goContains content "replace (" = true →
      addReplaceDirectives gc cwd fs = Except.ok fs) ∧
    (∀ (render : String → Except String String) (gc : GenConfig) (cwd ft : String)
        (fs : FS) (content : String),
      render ft = Except.ok content →
      GenerateFile render gc cwd ft fs =
        Except.ok (fsWrite fs (filePath gc cwd ft) content) ∧
      fsRead (fsWrite fs (filePath gc cwd ft) content) (filePath gc cwd ft) =
        some content) := by
  refine ⟨?_, ?_, ?_⟩
  · intro ic gc cwd fs h
    obtain ⟨c, hc⟩ := Option.isSome_iff_exists.mp h
    simp [InitMod, hc]
  · intro gc cwd fs content h1 h2
    simp [addReplaceDirectives, h1, h2]
  · intro render gc cwd ft fs content h
    exact ⟨by simp [GenerateFile, h], by simp [fsRead, fsWrite]⟩

/-- C7 witness: a go.mod that already exists and already holds the
replace block is left untouched by InitMod and addReplaceDirectives,
while GenerateFile overwrites an existing Taskfile.yaml. -/
theorem second_run_asymmetric_idempotence_witness :
    InitMod (Except.ok "module x") (NewGenConfig "github.com/acme/widgets" "") "/w"
      [("/w/go.mod", "module x\n\nreplace (\n)")] =
      Except.ok [("/w/go.mod", "module x\n\nreplace (\n)")] ∧
    addReplaceDirectives (NewGenConfig "github.com/acme/widgets" "") "/w"
      [("/w/go.mod", "module x\n\nreplace (\n)")] =
      Except.ok [("/w/go.mod", "module x\n\nreplace (\n)")] ∧
    (GenerateFile (fun _ => Except.ok "new content")
        (NewGenConfig "github.com/acme/widgets" "") "/w" "taskfile"
        [("/w/Taskfile.yaml", "old content")] =
      Except.ok (fsWrite [("/w/Taskfile.yaml", "old content")]
        (filePath (NewGenConfig "github.com/acme/widgets" "") "/w" "taskfile")
        "new content") ∧
     fsRead (fsWrite [("/w/Taskfile.yaml", "old content")]
        (filePath (NewGenConfig "github.com/acme/widgets" "") "/w" "taskfile")
        "new content")
        (filePath (NewGenConfig "github.com/acme/widgets" "") "/w" "taskfile") =
      some "new content") :=
  ⟨second_run_asymmetric_idempotence.1 (Except.ok "module x")
     (NewGenConfig "github.com/acme/widgets" "") "/w"
     [("/w/go.mod", "module x\n\nreplace (\n)")] (by decide),
   second_run_asymmetric_idempotence.2.1
     (NewGenConfig "github.com/acme/widgets" "") "/w"
     [("/w/go.mod", "module x\n\nreplace (\n)")] "module x\n\nreplace (\n)"
     (by decide) (by decide),
   second_run_asymmetric_idempotence.2.2 (fun _ => Except.ok "new content")
     (NewGenConfig "github.com/acme/widgets" "") "/w" "taskfile"
     [("/w/Taskfile.yaml", "old content")] "new content" rfl⟩

end theorems2
